import Mathlib

/-!
Verification of the Gaussian-splat worker pipeline (`workerCode.ts`,
`SplatRendererGPU.ts`) against its natural-language specification.

The JavaScript worker manipulates typed-array views of a 32-byte-per-splat
packed buffer.  We embed the numeric state exactly:

* byte values are `ℕ` (always < 256 where the source stores them);
* 32-bit float *bit patterns* are `ℕ` (< 2^32), and `floatToHalf` is
  modelled directly on the pattern, exactly as the source does after its
  `Float32Array`/`Int32Array` bit-cast;
* float *values* are modelled as exact rationals `ℚ` (the source computes
  in binary64; the claims under verification concern the algorithmic
  structure — truncation direction, ordering, permutation — not the
  binary64 rounding of individual products);
* JavaScript `x | 0` (ToInt32: truncation toward zero, wrap to 32-bit
  two's complement) is `jsTrunc32`;
* JavaScript `Math.round x` = `⌊x + 1/2⌋` is `jsRound`.
-/

/-- Round as JavaScript `Math.round`: floor of `x + 1/2` (ties toward +∞). -/
def jsRound (q : ℚ) : ℤ := ⌊q + 1/2⌋

/-- Truncation toward zero of a rational, as a mathematical integer. -/
def ratTrunc (q : ℚ) : ℤ := if 0 ≤ q then ⌊q⌋ else ⌈q⌉

/-- JavaScript `x | 0` (ToInt32): truncate toward zero, then wrap into
the signed 32-bit range `[-2^31, 2^31)`. -/
def jsTrunc32 (q : ℚ) : ℤ := ((ratTrunc q + 2 ^ 31) % 2 ^ 32) - 2 ^ 31

/-- Conversion of a single-precision bit pattern `v` (`v < 2^32`) to a
half-precision bit pattern.  Direct transcription of `floatToHalf` in
`workerCode.ts`; the source reads the pattern through an `Int32Array`
view, and its arithmetic right-shifts composed with the masks used give
exactly the unsigned-pattern field extractions below.  JavaScript shift
counts are masked by 31, hence the `% 32` on the subnormal shift. -/
def floatToHalf (v : ℕ) : ℕ :=
  let s := (v >>> 31) &&& 0x0001
  let e := (v >>> 23) &&& 0x00ff
  let frac := v &&& 0x007fffff
  if e = 0 then
    (s <<< 15) ||| (0 <<< 10) ||| (frac >>> 13)
  else if e < 113 then
    let frac1 := (frac ||| 0x00800000) >>> ((113 - e) % 32)
    if frac1 &&& 0x01000000 ≠ 0 then (s <<< 15) ||| (1 <<< 10) ||| (0 >>> 13)
    else (s <<< 15) ||| (0 <<< 10) ||| (frac1 >>> 13)
  else if e < 142 then
    (s <<< 15) ||| ((e - 112) <<< 10) ||| (frac >>> 13)
  else
    (s <<< 15) ||| (31 <<< 10) ||| (0 >>> 13)

/-- Pack two half-precision patterns into one 32-bit word
(`packHalf2x16` of the source, at the bit-pattern level). -/
def packHalf2x16bits (h1 h2 : ℕ) : ℕ := h1 ||| (h2 <<< 16)

/-- Round a rational to the nearest integer, ties to even (the rounding
mode IEEE-754 uses for binary32 results). -/
def rne (q : ℚ) : ℤ :=
  let f := ⌊q⌋
  let r := q - f
  if r < 1/2 then f
  else if 1/2 < r then f + 1
  else if f % 2 = 0 then f else f + 1

/-- Encoding of an exact rational as an IEEE-754 binary32 bit pattern
(round to nearest, ties to even; overflow to infinity; gradual
underflow).  This models the `Float32Array` store through which the
source feeds values to `floatToHalf` and to the position words of the
texture. -/
def toF32bits (x : ℚ) : ℕ :=
  if x = 0 then 0
  else
    let s : ℕ := if x < 0 then 2 ^ 31 else 0
    let a : ℚ := |x|
    let e : ℤ := Int.log 2 a
    if -126 ≤ e then
      let m : ℤ := rne (a * (2 : ℚ) ^ (23 - e))
      if m = 2 ^ 24 then
        if 128 ≤ e + 1 then s + 0x7f800000
        else s + (e + 1 + 127).toNat * 2 ^ 23
      else if 128 ≤ e then s + 0x7f800000
      else s + (e + 127).toNat * 2 ^ 23 + (m - 2 ^ 23).toNat
    else
      let m : ℤ := rne (a * (2 : ℚ) ^ (149 : ℕ))
      if (2 : ℤ) ^ 23 ≤ m then s + 2 ^ 23
      else s + m.toNat

/-- Pack two rational values as a pair of half floats in one 32-bit
word, through the binary32 pattern (source: `packHalf2x16(x, y)`). -/
def packHalf2x16 (x y : ℚ) : ℕ :=
  packHalf2x16bits (floatToHalf (toF32bits x)) (floatToHalf (toF32bits y))

/-- One splat of the packed 32-byte-per-splat buffer
(`SplatRenderer.setData` layout): position floats at bytes 0-11, scale
floats at bytes 12-23, RGBA bytes at 24-27 (`a` is the opacity byte at
offset 27 used for culling), quaternion bytes at 28-31. Float entries
carry their exact values as rationals. -/
structure Splat where
  px : ℚ
  py : ℚ
  pz : ℚ
  sx : ℚ
  sy : ℚ
  sz : ℚ
  r : ℕ
  g : ℕ
  b : ℕ
  a : ℕ
  q0 : ℕ
  q1 : ℕ
  q2 : ℕ
  q3 : ℕ
deriving DecidableEq, Inhabited

/-- Packer byte for one color/opacity channel:
`Math.round(Math.min(1, Math.max(0, v)) * 255)` stored in a `Uint8Array`
(store wraps modulo 256; here the value is already in `[0,255]`). -/
def packColorByte (v : ℚ) : ℕ := (jsRound (min 1 (max 0 v) * 255)).toNat % 256

/-- Packer byte for one quaternion component:
`Math.round(Math.min(1, Math.max(-1, v)) * 128 + 128)` stored into a
`Uint8Array`, which wraps the result modulo 256. -/
def packRotByte (v : ℚ) : ℕ := (jsRound (min 1 (max (-1) v) * 128 + 128)).toNat % 256

/-- Worker-side decoding of a quaternion byte: `(u - 128) / 128`. -/
def decodeRot (u : ℕ) : ℚ := ((u : ℚ) - 128) / 128

/-- Rotation-derived matrix of `generateTexture` (and of spec §4.2.1),
as the flat row-major 9-entry array the source builds before scaling:
rows are indexed by `j / 3`, columns by `j % 3`. -/
def rotFlat (w x y z : ℚ) : Fin 9 → ℚ
  | 0 => 1 - 2 * (y * y + z * z)
  | 1 => 2 * (x * y + w * z)
  | 2 => 2 * (x * z - w * y)
  | 3 => 2 * (x * y - w * z)
  | 4 => 1 - 2 * (x * x + z * z)
  | 5 => 2 * (y * z + w * x)
  | 6 => 2 * (x * z + w * y)
  | 7 => 2 * (y * z - w * x)
  | 8 => 1 - 2 * (x * x + y * y)

/-- Scale component selected for flat entry `j`: `scale[Math.floor(j/3)]`
(entries 0-2 are row 0, 3-5 row 1, 6-8 row 2). -/
def scaleSel (s0 s1 s2 : ℚ) : Fin 9 → ℚ
  | 0 | 1 | 2 => s0
  | 3 | 4 | 5 => s1
  | 6 | 7 | 8 => s2

/-- Scaled matrix `M`: the source multiplies flat entry `j` by
`scale[Math.floor(j / 3)]`, i.e. row `j/3` is scaled by that scale
component. -/
def scaledM (w x y z s0 s1 s2 : ℚ) : Fin 9 → ℚ :=
  fun j => rotFlat w x y z j * scaleSel s0 s1 s2 j

/-- Six unique covariance entries `sigma = Mᵀ * M` in the order the
source emits them: (σ00, σ01, σ02, σ11, σ12, σ22). -/
def sigmaCode (w x y z s0 s1 s2 : ℚ) : Fin 6 → ℚ :=
  fun k =>
    let M := scaledM w x y z s0 s1 s2
    match k with
    | 0 => M 0 * M 0 + M 3 * M 3 + M 6 * M 6
    | 1 => M 0 * M 1 + M 3 * M 4 + M 6 * M 7
    | 2 => M 0 * M 2 + M 3 * M 5 + M 6 * M 8
    | 3 => M 1 * M 1 + M 4 * M 4 + M 7 * M 7
    | 4 => M 1 * M 2 + M 4 * M 5 + M 7 * M 8
    | 5 => M 2 * M 2 + M 5 * M 5 + M 8 * M 8

/-- Rotation matrix `R` of spec §4.2.1 as a function of row and column
indices: `R j k = rotFlat (3*j + k)`, i.e. exactly the `rotFlat`
entries laid out in rows. -/
def Rspec (w x y z : ℚ) (j k : Fin 3) : ℚ :=
  rotFlat w x y z ⟨3 * j.val + k.val, by omega⟩

/-- Diagonal scale entry `s_l` of `diag(s)`. -/
def diagS (s0 s1 s2 : ℚ) : Fin 3 → ℚ
  | 0 => s0
  | 1 => s1
  | 2 => s2

/-- Entry `(j,k)` of the product `R · diag(s)² · Rᵀ` — the formula the
claim asserts the recovered covariance equals:
`(R·D·Rᵀ)ⱼₖ = Σ_l Rⱼₗ · s_l² · Rₖₗ`. -/
def covRDRt (w x y z s0 s1 s2 : ℚ) (j k : Fin 3) : ℚ :=
  ∑ l : Fin 3, Rspec w x y z j l * diagS s0 s1 s2 l ^ 2 * Rspec w x y z k l

/-- Entry `(j,k)` of the product `Rᵀ · diag(s)² · R` — what `MᵀM` with
row-scaled `M` expands to: `(Rᵀ·D·R)ⱼₖ = Σ_l Rₗⱼ · s_l² · Rₗₖ`. -/
def covRtDR (w x y z s0 s1 s2 : ℚ) (j k : Fin 3) : ℚ :=
  ∑ l : Fin 3, Rspec w x y z l j * diagS s0 s1 s2 l ^ 2 * Rspec w x y z l k

/-- Decoded quaternion components of a splat, in source order
`rot[0..3]` from bytes 28..31. -/
def splatRot (sp : Splat) : Fin 4 → ℚ :=
  ![decodeRot sp.q0, decodeRot sp.q1, decodeRot sp.q2, decodeRot sp.q3]

/-- Sigma entries the worker computes for a splat (`generateTexture`
body: decode rotation bytes, build `M` from rotation and scales, then
`sigma = MᵀM`). -/
def splatSigma (sp : Splat) : Fin 6 → ℚ :=
  sigmaCode (decodeRot sp.q0) (decodeRot sp.q1) (decodeRot sp.q2) (decodeRot sp.q3)
    sp.sx sp.sy sp.sz

/-- Words `8i+0 .. 8i+7` (texels `2i` and `2i+1`) that `generateTexture`
writes for one splat: position float patterns in words 0-2, word 3
untouched (zero), covariance half-float pairs (each entry premultiplied
by 4) in words 4-6, RGBA bytes little-endian in word 7. -/
def texelWord (sp : Splat) (k : ℕ) : ℕ :=
  match k with
  | 0 => toF32bits sp.px
  | 1 => toF32bits sp.py
  | 2 => toF32bits sp.pz
  | 3 => 0
  | 4 => packHalf2x16 (4 * splatSigma sp 0) (4 * splatSigma sp 1)
  | 5 => packHalf2x16 (4 * splatSigma sp 2) (4 * splatSigma sp 3)
  | 6 => packHalf2x16 (4 * splatSigma sp 4) (4 * splatSigma sp 5)
  | 7 => sp.r + 256 * sp.g + 65536 * sp.b + 16777216 * sp.a
  | _ + 8 => 0

/-- Texture contents as a map from 32-bit-word index to word value.
`generateTexture` zero-allocates the array and, for splat `i`, writes
only words `8i+0..8i+7` (word `8i+3` is never assigned); words past the
splat data stay zero. -/
def generateTexture (scene : List Splat) : ℕ → ℕ :=
  fun wIdx =>
    if h : wIdx / 8 < scene.length then texelWord (scene.get ⟨wIdx / 8, h⟩) (wIdx % 8)
    else 0

/-- Texture height `Math.ceil(2 * vertexCount / texwidth)` with
`texwidth = 2048`. -/
def texHeight (vertexCount : ℕ) : ℕ := (2 * vertexCount + 2047) / 2048

/-- Array-style access to the splat list; all source accesses are in
range, so the default value is never observed along executed paths. -/
def splatAt (scene : List Splat) (i : ℕ) : Splat := scene.getD i default

/-- Pre-filter pass of `runSort`: indices of splats whose opacity byte
`u_buffer[32*i + 27]` is at least `alphaMin`, in increasing order (the
source scans `i = 0 .. vertexCount-1` appending to `visibleMap`). -/
def visibleMap (scene : List Splat) (alphaMin : ℕ) : List ℕ :=
  (List.range scene.length).filter (fun i => alphaMin ≤ (splatAt scene i).a)

/-- Depth of a splat under a view-projection matrix (column-major, 16
entries): `((viewProj[2]*x + viewProj[6]*y + viewProj[10]*z) * 4096) | 0`. -/
def depthOf (vp : Fin 16 → ℚ) (sp : Splat) : ℤ :=
  jsTrunc32 ((vp 2 * sp.px + vp 6 * sp.py + vp 10 * sp.pz) * 4096)

/-- Maximum of a list of integers (the source folds with `>` starting
from `-Infinity`; for a nonempty list that is a fold from the head). -/
def listMax : List ℤ → ℤ
  | [] => 0
  | d :: ds => ds.foldl max d

/-- Minimum of a list of integers (source fold with `<` from `Infinity`). -/
def listMin : List ℤ → ℤ
  | [] => 0
  | d :: ds => ds.foldl min d

/-- Depths of the visible splats, in `visibleMap` order (the source's
`sizeList` before bucket quantization). -/
def sortDepths (scene : List Splat) (vp : Fin 16 → ℚ) (alphaMin : ℕ) : List ℤ :=
  (visibleMap scene alphaMin).map (fun i => depthOf vp (splatAt scene i))

/-- Bucket quantization `((depth - minDepth) * depthInv) | 0` with
`depthInv = 65535 / (maxDepth - minDepth)`.  When `maxD = minD` the
source's `depthInv` is `Infinity` and `0 * Infinity | 0` is `0`; in `ℚ`
division by zero gives `0`, so the formula below also yields bucket `0`
in that case, matching the source. -/
def bucketOf (minD maxD d : ℤ) : ℕ :=
  (jsTrunc32 (((d : ℚ) - (minD : ℚ)) * (65535 / ((maxD : ℚ) - (minD : ℚ))))).toNat

/-- Bucket of splat `i` in the sort of `scene` under `vp` and `alphaMin`. -/
def sortBucket (scene : List Splat) (vp : Fin 16 → ℚ) (alphaMin : ℕ) (i : ℕ) : ℕ :=
  bucketOf (listMin (sortDepths scene vp alphaMin)) (listMax (sortDepths scene vp alphaMin))
    (depthOf vp (splatAt scene i))

/-- Prefix sums of the bucket histogram: `starts0[b] = Σ_{c<b} counts0[c]`
where `counts0[c]` is the number of occurrences of bucket `c`. -/
def startsOf (bs : List ℕ) (b : ℕ) : ℕ := ∑ c ∈ Finset.range b, bs.count c

/-- Scatter loop of the counting sort: for each (bucket, index) pair in
order, write the index at `out[starts[bucket]]` and increment
`starts[bucket]`.  Arrays are modelled as maps `ℕ → ℕ`. -/
def scatterLoop : List (ℕ × ℕ) → (ℕ → ℕ) → (ℕ → ℕ) → (ℕ → ℕ) × (ℕ → ℕ)
  | [], starts, out => (starts, out)
  | p :: ps, starts, out =>
      scatterLoop ps
        (fun c => if c = p.1 then starts c + 1 else starts c)
        (fun j => if j = starts p.1 then p.2 else out j)

/-- Output array of the counting sort on (bucket, index) pairs, read
back as a list of length `ps.length`. -/
def countingSortOut (ps : List (ℕ × ℕ)) : List ℕ :=
  (List.range ps.length).map
    ((scatterLoop ps (startsOf (ps.map Prod.fst)) (fun _ => 0)).2)

/-- Depth sort with alpha culling (`runSort`): returns the sorted index
array and the visible count.  The source stores each visible splat's
bucket in `sizeList` and its index in `visibleMap`; the pair list below
carries the same data positionally. -/
def runSort (scene : List Splat) (vp : Fin 16 → ℚ) (alphaMin : ℕ) : List ℕ × ℕ :=
  let visible := visibleMap scene alphaMin
  if visible.isEmpty then ([], 0)
  else
    let pairs := visible.map (fun i => (sortBucket scene vp alphaMin i, i))
    (countingSortOut pairs, visible.length)

/-- Worker state: packed scene (if loaded), last stored view-projection
(`lastProj`, initially the empty array, i.e. `none`), alpha cutoff. -/
structure WorkerState where
  scene : Option (List Splat)
  lastProj : Option (Fin 16 → ℚ)
  alphaMin : ℕ

/-- Initial worker state: `buffer = null`, `lastProj = []`, `alphaMin = 1`. -/
def initialState : WorkerState := { scene := none, lastProj := none, alphaMin := 1 }

/-- Worker input message.  Mirrors the duck-typed `e.data`: any subset
of the three fields may be present and the handler checks them in
order (`buffer`, then `cullParams`, then `view`).  A load message
carries the packed buffer and its `vertexCount` (= list length). -/
structure WorkerMsg where
  buffer : Option (List Splat)
  cullParams : Option ℕ
  view : Option (Fin 16 → ℚ)

/-- Worker output message: either the texture (posted on load) or a
sort result `{depthIndex, vertexCount = visibleCount, totalCount}`. -/
inductive OutMsg where
  | texture (texdata : ℕ → ℕ) (texwidth texheight : ℕ)
  | sorted (depthIndex : List ℕ) (vertexCount totalCount : ℕ)

/-- Throttle test of the sort branch: with a previous `lastProj`,
skip when `|lastProj[2]*vp[2] + lastProj[6]*vp[6] + lastProj[10]*vp[10] - 1| < 0.01`. -/
def throttled (lastProj : Option (Fin 16 → ℚ)) (vp : Fin 16 → ℚ) : Bool :=
  match lastProj with
  | none => false
  | some lp => |lp 2 * vp 2 + lp 6 * vp 6 + lp 10 * vp 10 - 1| < 1/100

/-- One `onmessage` dispatch of the worker: processes the `buffer`,
`cullParams` and `view` fields in source order, returning the new state
and the posted messages in order. -/
def processMessage (st : WorkerState) (m : WorkerMsg) : WorkerState × List OutMsg :=
  let stOut1 : WorkerState × List OutMsg :=
    match m.buffer with
    | some scene =>
        ({ st with scene := some scene },
         [OutMsg.texture (generateTexture scene) 2048 (texHeight scene.length)])
    | none => (st, [])
  let st2 : WorkerState :=
    match m.cullParams with
    | some aMin => { stOut1.1 with alphaMin := aMin, lastProj := none }
    | none => stOut1.1
  match m.view with
  | none => (st2, stOut1.2)
  | some vp =>
    match st2.scene with
    | none => (st2, stOut1.2)
    | some scene =>
      if scene.length = 0 then (st2, stOut1.2)
      else if throttled st2.lastProj vp then (st2, stOut1.2)
      else
        let result := runSort scene vp st2.alphaMin
        ({ st2 with lastProj := some vp },
         stOut1.2 ++ [OutMsg.sorted result.1 result.2 scene.length])

/-- Sample splat: origin position, unit-ish scales, opaque (opacity byte
255), quaternion bytes 192 = encoding of component 1/2. -/
def spVis : Splat := ⟨0, 0, 1, 1, 2, 3, 10, 20, 30, 255, 192, 192, 192, 192⟩

/-- Sample splat that the default cutoff culls: opacity byte 0. -/
def spInvis : Splat := { spVis with a := 0 }

/-- Sample splat at depth row value `-1/8192` (exactly representable in
binary32/binary64). -/
def spNegX : Splat := { spVis with px := -1/8192, pz := 0 }

/-- Sample splat with distinct RGBA bytes (1,2,3,4). -/
def spRGBA : Splat := { spVis with r := 1, g := 2, b := 3, a := 4 }

/-- Sample second splat at depth 2 along z. -/
def spZ2 : Splat := { spVis with pz := 2 }

/-- View-projection whose depth row is the unit z row: entry 10 is 1. -/
def vpZ : Fin 16 → ℚ := fun i => if i.val = 10 then 1 else 0

/-- View-projection with entry 2 equal to 1, other entries 0. -/
def vpX : Fin 16 → ℚ := fun i => if i.val = 2 then 1 else 0

/-- View-projection with entry 2 equal to 2: its depth row has squared
norm 4, far from 1, so the throttle dot test never fires on it. -/
def vpBig : Fin 16 → ℚ := fun i => if i.val = 2 then 2 else 0

/-- Bucket of the `k`-th pair of a (bucket, index) list (out-of-range
reads give the junk pair `(0,0)`, never reached in the proofs). -/
def pairBkt (ps : List (ℕ × ℕ)) (k : ℕ) : ℕ := (ps.getD k (0, 0)).1

/-- Value (splat index) of the `k`-th pair of a (bucket, index) list. -/
def pairVal (ps : List (ℕ × ℕ)) (k : ℕ) : ℕ := (ps.getD k (0, 0)).2

/-- Position at which the scatter loop running with `starts` writes the
`k`-th pair: current value of `starts` at that pair's bucket, i.e. the
given base plus the number of earlier pairs with the same bucket. -/
def posAux (ps : List (ℕ × ℕ)) (starts : ℕ → ℕ) (k : ℕ) : ℕ :=
  starts (pairBkt ps k) + ((ps.take k).map Prod.fst).count (pairBkt ps k)

/-- Write position of the `k`-th pair in the full counting sort. -/
def wpos (ps : List (ℕ × ℕ)) (k : ℕ) : ℕ :=
  posAux ps (startsOf (ps.map Prod.fst)) k

theorem lor_eq_add_of_lt {k b : ℕ} (hb : b < 2 ^ k) (a : ℕ) :
    (2 ^ k * a) ||| b = 2 ^ k * a + b :=
  (Nat.mul_add_lt_is_or hb a).symm

theorem and_255_eq_mod (x : ℕ) : x &&& 0x00ff = x % 256 := by
  have h := Nat.and_pow_two_sub_one_eq_mod x 8
  norm_num at h
  exact h

theorem and_mask23_eq_mod (x : ℕ) : x &&& 0x007fffff = x % 2 ^ 23 := by
  have h := Nat.and_pow_two_sub_one_eq_mod x 23
  norm_num at h ⊢
  exact h

theorem lor_two_pow_23 {x : ℕ} (hx : x < 2 ^ 23) : x ||| 0x00800000 = x + 2 ^ 23 := by
  have h := Nat.mul_add_lt_is_or hx (i := 23) 1
  rw [Nat.lor_comm]
  norm_num at h ⊢
  omega

theorem and_two_pow_24_eq_zero {x : ℕ} (hx : x < 2 ^ 24) : x &&& 0x01000000 = 0 := by
  have h : x &&& 2 ^ 24 = (x.testBit 24).toNat * 2 ^ 24 := Nat.and_two_pow x 24
  rw [Nat.testBit_eq_false_of_lt hx] at h
  norm_num at h ⊢
  exact h

theorem floatToHalf_exp_zero (v : ℕ) (he : v / 2 ^ 23 % 256 = 0) :
    floatToHalf v = v / 2 ^ 31 % 2 * 2 ^ 15 + v % 2 ^ 23 / 2 ^ 13 := by
  have hlt : v % 2 ^ 23 / 2 ^ 13 < 2 ^ 15 := by omega
  simp only [floatToHalf, Nat.shiftRight_eq_div_pow, Nat.shiftLeft_eq, Nat.and_one_is_mod,
    and_255_eq_mod, and_mask23_eq_mod, Nat.zero_mul, Nat.or_zero]
  rw [if_pos he, mul_comm (v / 2 ^ 31 % 2) (2 ^ 15), lor_eq_add_of_lt hlt, mul_comm (2 ^ 15) (v / 2 ^ 31 % 2)]

theorem floatToHalf_exp_small (v : ℕ) (he1 : v / 2 ^ 23 % 256 ≠ 0)
    (he2 : v / 2 ^ 23 % 256 < 113) :
    floatToHalf v = v / 2 ^ 31 % 2 * 2 ^ 15 +
      (v % 2 ^ 23 + 2 ^ 23) / 2 ^ ((113 - v / 2 ^ 23 % 256) % 32 + 13) := by
  have hfrac : v % 2 ^ 23 < 2 ^ 23 := Nat.mod_lt _ (by norm_num)
  simp only [floatToHalf, Nat.shiftRight_eq_div_pow, Nat.shiftLeft_eq, Nat.and_one_is_mod,
    and_255_eq_mod, and_mask23_eq_mod, Nat.zero_mul, Nat.or_zero]
  rw [if_neg he1, if_pos he2, lor_two_pow_23 hfrac]
  have hdiv : (v % 2 ^ 23 + 2 ^ 23) / 2 ^ ((113 - v / 2 ^ 23 % 256) % 32) ≤
      v % 2 ^ 23 + 2 ^ 23 := Nat.div_le_self _ _
  rw [if_neg (by
    simp only [ne_eq, not_not]
    exact and_two_pow_24_eq_zero (by omega))]
  have hlt : (v % 2 ^ 23 + 2 ^ 23) / 2 ^ ((113 - v / 2 ^ 23 % 256) % 32) / 2 ^ 13 < 2 ^ 15 := by
    omega
  rw [mul_comm (v / 2 ^ 31 % 2) (2 ^ 15), lor_eq_add_of_lt hlt, mul_comm (2 ^ 15) (v / 2 ^ 31 % 2), Nat.div_div_eq_div_mul, ← pow_add]

theorem floatToHalf_exp_normal (v : ℕ) (he1 : 113 ≤ v / 2 ^ 23 % 256)
    (he2 : v / 2 ^ 23 % 256 < 142) :
    floatToHalf v = v / 2 ^ 31 % 2 * 2 ^ 15 +
      (v / 2 ^ 23 % 256 - 112) * 2 ^ 10 + v % 2 ^ 23 / 2 ^ 13 := by
  have hfrac : v % 2 ^ 23 < 2 ^ 23 := Nat.mod_lt _ (by norm_num)
  simp only [floatToHalf, Nat.shiftRight_eq_div_pow, Nat.shiftLeft_eq, Nat.and_one_is_mod,
    and_255_eq_mod, and_mask23_eq_mod, Nat.zero_mul, Nat.or_zero]
  rw [if_neg (by omega), if_neg (by omega), if_pos he2]
  have hne : v / 2 ^ 23 % 256 - 112 < 2 ^ 5 := by omega
  have h1 : (v / 2 ^ 31 % 2 * 2 ^ 15) ||| ((v / 2 ^ 23 % 256 - 112) * 2 ^ 10) =
      v / 2 ^ 31 % 2 * 2 ^ 15 + (v / 2 ^ 23 % 256 - 112) * 2 ^ 10 := by
    rw [mul_comm (v / 2 ^ 31 % 2) (2 ^ 15)]
    rw [lor_eq_add_of_lt (by omega)]
  rw [h1]
  have h2 : v / 2 ^ 31 % 2 * 2 ^ 15 + (v / 2 ^ 23 % 256 - 112) * 2 ^ 10 =
      2 ^ 10 * (v / 2 ^ 31 % 2 * 2 ^ 5 + (v / 2 ^ 23 % 256 - 112)) := by ring
  rw [h2, lor_eq_add_of_lt (by omega), ← h2]

theorem floatToHalf_exp_big (v : ℕ) (he : 142 ≤ v / 2 ^ 23 % 256) :
    floatToHalf v = v / 2 ^ 31 % 2 * 2 ^ 15 + 31 * 2 ^ 10 := by
  simp only [floatToHalf, Nat.shiftRight_eq_div_pow, Nat.shiftLeft_eq, Nat.and_one_is_mod,
    and_255_eq_mod, and_mask23_eq_mod, Nat.zero_mul, Nat.or_zero, Nat.zero_div]
  rw [if_neg (by omega), if_neg (by omega), if_neg (by omega)]
  have h2 : v / 2 ^ 31 % 2 * 2 ^ 15 + 31 * 2 ^ 10 =
      2 ^ 10 * (v / 2 ^ 31 % 2 * 2 ^ 5 + 31) := by ring
  rw [mul_comm (v / 2 ^ 31 % 2) (2 ^ 15), lor_eq_add_of_lt (show 31 * 2 ^ 10 < 2 ^ 15 by norm_num),
    mul_comm (2 ^ 15) (v / 2 ^ 31 % 2)]

theorem posAux_cons_zero (p : ℕ × ℕ) (ps : List (ℕ × ℕ)) (starts : ℕ → ℕ) :
    posAux (p :: ps) starts 0 = starts p.1 := by
  simp [posAux, pairBkt]

theorem posAux_cons_succ (p : ℕ × ℕ) (ps : List (ℕ × ℕ)) (starts : ℕ → ℕ) (k : ℕ) :
    posAux (p :: ps) starts (k + 1) =
      posAux ps (fun c => if c = p.1 then starts c + 1 else starts c) k := by
  simp only [posAux, pairBkt, List.getD_cons_succ, List.take_succ_cons, List.map_cons,
    List.count_cons]
  simp only [beq_iff_eq]
  rcases eq_or_ne p.1 ((ps.getD k (0, 0)).1) with h | h
  · rw [if_pos h, if_pos h.symm]
    omega
  · rw [if_neg h, if_neg (Ne.symm h)]
    omega

theorem scatter_untouched (ps : List (ℕ × ℕ)) (starts out : ℕ → ℕ) (j : ℕ)
    (h : ∀ k, k < ps.length → posAux ps starts k ≠ j) :
    (scatterLoop ps starts out).2 j = out j := by
  induction ps generalizing starts out with
  | nil => rfl
  | cons p ps ih =>
      rw [scatterLoop]
      rw [ih]
      · have h0 := h 0 (by simp)
        rw [posAux_cons_zero] at h0
        simp [Ne.symm h0]
      · intro k hk
        have := h (k + 1) (by simpa using Nat.succ_lt_succ hk)
        rwa [posAux_cons_succ] at this

theorem scatter_write (ps : List (ℕ × ℕ)) (starts out : ℕ → ℕ) (k : ℕ)
    (hk : k < ps.length)
    (h : ∀ k', k < k' → k' < ps.length → posAux ps starts k' ≠ posAux ps starts k) :
    (scatterLoop ps starts out).2 (posAux ps starts k) = pairVal ps k := by
  induction ps generalizing starts out k with
  | nil => exact absurd hk (by simp)
  | cons p ps ih =>
      rw [scatterLoop]
      cases k with
      | zero =>
          rw [posAux_cons_zero]
          rw [scatter_untouched]
          · simp [pairVal]
          · intro k' hk'
            have := h (k' + 1) (Nat.succ_pos k') (by simpa using Nat.succ_lt_succ hk')
            rw [posAux_cons_succ, posAux_cons_zero] at this
            exact this
      | succ k =>
          rw [posAux_cons_succ]
          rw [ih _ _ k (by simpa using hk)]
          · simp [pairVal]
          · intro k' hk' hk2
            have := h (k' + 1) (by omega) (by simpa using Nat.succ_lt_succ hk2)
            rw [posAux_cons_succ, posAux_cons_succ] at this
            exact this

theorem count_take_lt_count_take (bs : List ℕ) {k m : ℕ} (hk : k < bs.length) (hkm : k < m) :
    (bs.take k).count (bs.getD k 0) < (bs.take m).count (bs.getD k 0) := by
  have hsub : List.Sublist (bs.take (k + 1)) (bs.take m) := by
    rw [show bs.take (k + 1) = (bs.take m).take (k + 1) by rw [List.take_take, min_eq_left hkm]]
    exact List.take_sublist _ _
  have hle := hsub.count_le (bs.getD k 0)
  have hsucc : (bs.take (k + 1)).count (bs.getD k 0) =
      (bs.take k).count (bs.getD k 0) + 1 := by
    rw [List.take_succ, List.count_append]
    have hx : bs[k]? = some (bs.getD k 0) := by
      rw [List.getD_eq_getElem?_getD]
      cases h : bs[k]? with
      | none => exact absurd (List.getElem?_eq_none_iff.mp h) (by omega)
      | some x => simp
    rw [hx]
    simp
  omega

theorem count_take_lt_count (bs : List ℕ) {k : ℕ} (hk : k < bs.length) :
    (bs.take k).count (bs.getD k 0) < bs.count (bs.getD k 0) := by
  have h := count_take_lt_count_take bs hk hk
  rwa [List.take_length] at h

theorem startsOf_succ (bs : List ℕ) (b : ℕ) :
    startsOf bs (b + 1) = startsOf bs b + bs.count b := by
  rw [startsOf, startsOf, Finset.sum_range_succ]

theorem startsOf_mono (bs : List ℕ) {b c : ℕ} (h : b ≤ c) :
    startsOf bs b ≤ startsOf bs c := by
  apply Finset.sum_le_sum_of_subset
  exact Finset.range_subset.mpr h

theorem startsOf_le_length (bs : List ℕ) (b : ℕ) : startsOf bs b ≤ bs.length := by
  induction bs with
  | nil => simp [startsOf]
  | cons x t ih =>
      have hstep : startsOf (x :: t) b = startsOf t b + (if x ∈ Finset.range b then 1 else 0) := by
        rw [startsOf, startsOf]
        have h1 : ∀ c ∈ Finset.range b, List.count c (x :: t) =
            List.count c t + if c = x then 1 else 0 := by
          intro c _
          rw [List.count_cons]
          simp only [beq_iff_eq]
          rcases eq_or_ne c x with h | h
          · rw [if_pos h, if_pos h.symm]
          · rw [if_neg h, if_neg (Ne.symm h)]
        rw [Finset.sum_congr rfl h1, Finset.sum_add_distrib,
          Finset.sum_ite_eq' (Finset.range b) x (fun _ => 1)]
      rw [hstep]
      simp only [List.length_cons]
      split_ifs <;> omega

theorem pairBkt_eq_map_getD {ps : List (ℕ × ℕ)} {k : ℕ} (hk : k < ps.length) :
    (ps.map Prod.fst).getD k 0 = pairBkt ps k := by
  rw [pairBkt, List.getD_eq_getElem?_getD, List.getD_eq_getElem?_getD, List.getElem?_map]
  cases h : ps[k]? with
  | none => exact absurd (List.getElem?_eq_none_iff.mp h) (by omega)
  | some x => simp

theorem posAux_take_count (ps : List (ℕ × ℕ)) (starts : ℕ → ℕ) (k : ℕ) :
    posAux ps starts k =
      starts (pairBkt ps k) + ((ps.map Prod.fst).take k).count (pairBkt ps k) := by
  rw [posAux, List.map_take]

theorem wpos_lt_of_bkt_eq {ps : List (ℕ × ℕ)} {k k' : ℕ} (hk' : k' < ps.length)
    (hkk : k < k') (hb : pairBkt ps k = pairBkt ps k') : wpos ps k < wpos ps k' := by
  have hk : k < ps.length := lt_trans hkk hk'
  have hlen : k' < (ps.map Prod.fst).length := by simpa using hk'
  have hcnt := count_take_lt_count_take (ps.map Prod.fst) (m := k')
    (by simpa using hk) hkk
  rw [pairBkt_eq_map_getD hk] at hcnt
  rw [wpos, wpos, posAux_take_count, posAux_take_count, hb] at *
  omega

theorem wpos_lt_of_bkt_lt {ps : List (ℕ × ℕ)} {k k' : ℕ} (hk : k < ps.length)
    (hk' : k' < ps.length) (hb : pairBkt ps k < pairBkt ps k') : wpos ps k < wpos ps k' := by
  have hcnt := count_take_lt_count (ps.map Prod.fst) (k := k) (by simpa using hk)
  rw [pairBkt_eq_map_getD hk] at hcnt
  have h1 : wpos ps k < startsOf (ps.map Prod.fst) (pairBkt ps k + 1) := by
    rw [wpos, posAux_take_count, startsOf_succ]
    omega
  have h2 : startsOf (ps.map Prod.fst) (pairBkt ps k + 1) ≤
      startsOf (ps.map Prod.fst) (pairBkt ps k') := startsOf_mono _ hb
  have h3 : startsOf (ps.map Prod.fst) (pairBkt ps k') ≤ wpos ps k' := by
    rw [wpos, posAux_take_count]
    omega
  omega

theorem wpos_lt_length {ps : List (ℕ × ℕ)} {k : ℕ} (hk : k < ps.length) :
    wpos ps k < ps.length := by
  have hcnt := count_take_lt_count (ps.map Prod.fst) (k := k) (by simpa using hk)
  rw [pairBkt_eq_map_getD hk] at hcnt
  have h1 : wpos ps k < startsOf (ps.map Prod.fst) (pairBkt ps k + 1) := by
    rw [wpos, posAux_take_count, startsOf_succ]
    omega
  have h2 := startsOf_le_length (ps.map Prod.fst) (pairBkt ps k + 1)
  simp only [List.length_map] at h2
  omega

theorem wpos_ne {ps : List (ℕ × ℕ)} {k k' : ℕ} (hk : k < ps.length)
    (hk' : k' < ps.length) (hne : k ≠ k') : wpos ps k ≠ wpos ps k' := by
  rcases lt_trichotomy (pairBkt ps k) (pairBkt ps k') with hb | hb | hb
  · exact Nat.ne_of_lt (wpos_lt_of_bkt_lt hk hk' hb)
  · rcases lt_or_gt_of_ne hne with hkk | hkk
    · exact Nat.ne_of_lt (wpos_lt_of_bkt_eq hk' hkk hb)
    · exact Nat.ne_of_gt (wpos_lt_of_bkt_eq hk hkk hb.symm)
  · exact Nat.ne_of_gt (wpos_lt_of_bkt_lt hk' hk hb)

theorem out_at_wpos {ps : List (ℕ × ℕ)} {k : ℕ} (hk : k < ps.length) :
    (scatterLoop ps (startsOf (ps.map Prod.fst)) (fun _ => 0)).2 (wpos ps k) =
      pairVal ps k := by
  apply scatter_write ps _ _ k hk
  intro k' h1 h2
  exact wpos_ne h2 hk (by omega)

theorem wpos_image_range (ps : List (ℕ × ℕ)) :
    (Finset.range ps.length).image (wpos ps) = Finset.range ps.length := by
  classical
  have hinj : Set.InjOn (wpos ps) (Finset.range ps.length) := by
    intro a ha b hb hab
    by_contra hne
    exact wpos_ne (by simpa using ha) (by simpa using hb) hne hab
  have hsub : (Finset.range ps.length).image (wpos ps) ⊆ Finset.range ps.length := by
    intro x hx
    rcases Finset.mem_image.mp hx with ⟨k, hk, rfl⟩
    exact Finset.mem_range.mpr (wpos_lt_length (Finset.mem_range.mp hk))
  have hcard : ((Finset.range ps.length).image (wpos ps)).card =
      (Finset.range ps.length).card := Finset.card_image_of_injOn hinj
  exact Finset.eq_of_subset_of_card_le hsub (le_of_eq hcard.symm)

theorem wpos_surj (ps : List (ℕ × ℕ)) {p : ℕ} (hp : p < ps.length) :
    ∃ k, k < ps.length ∧ wpos ps k = p := by
  have hmem : p ∈ (Finset.range ps.length).image (wpos ps) := by
    rw [wpos_image_range]
    exact Finset.mem_range.mpr hp
  rcases Finset.mem_image.mp hmem with ⟨k, hk, hkp⟩
  exact ⟨k, Finset.mem_range.mp hk, hkp⟩

theorem range_map_getD {α : Type} (l : List α) (d : α) :
    (List.range l.length).map (fun k => l.getD k d) = l := by
  induction l with
  | nil => rfl
  | cons x t ih =>
      rw [List.length_cons, List.range_succ_eq_map, List.map_cons, List.map_map]
      have h1 : ((fun k => (x :: t).getD k d) ∘ Nat.succ) = fun k => t.getD k d := by
        funext k
        simp [List.getD_cons_succ]
      rw [List.getD_cons_zero, h1, ih]

theorem countingSortOut_perm (ps : List (ℕ × ℕ)) :
    List.Perm (countingSortOut ps) (ps.map Prod.snd) := by
  classical
  rw [← Multiset.coe_eq_coe]
  have hinj : Set.InjOn (wpos ps) (Finset.range ps.length) := by
    intro a ha b hb hab
    by_contra hne
    exact wpos_ne (by simpa using ha) (by simpa using hb) hne hab
  calc (↑(countingSortOut ps) : Multiset ℕ)
      = Multiset.map (scatterLoop ps (startsOf (ps.map Prod.fst)) (fun _ => 0)).2
          ((Finset.range ps.length).val) := by
        rw [countingSortOut, Finset.range_val, ← Multiset.coe_range, ← Multiset.map_coe]
    _ = Multiset.map (scatterLoop ps (startsOf (ps.map Prod.fst)) (fun _ => 0)).2
          (((Finset.range ps.length).image (wpos ps)).val) := by
        rw [wpos_image_range]
    _ = Multiset.map (scatterLoop ps (startsOf (ps.map Prod.fst)) (fun _ => 0)).2
          (Multiset.map (wpos ps) (Finset.range ps.length).val) := by
        rw [Finset.image_val_of_injOn hinj]
    _ = Multiset.map
          (fun k => (scatterLoop ps (startsOf (ps.map Prod.fst)) (fun _ => 0)).2 (wpos ps k))
          (Finset.range ps.length).val := by
        rw [Multiset.map_map]
        rfl
    _ = Multiset.map (fun k => pairVal ps k) (Finset.range ps.length).val := by
        apply Multiset.map_congr rfl
        intro k hk
        have hklt : k < ps.length := by
          rw [Finset.range_val, ← Multiset.coe_range] at hk
          simpa using hk
        exact out_at_wpos hklt
    _ = ↑((List.range ps.length).map (fun k => pairVal ps k)) := by
        rw [Finset.range_val, ← Multiset.coe_range, ← Multiset.map_coe]
    _ = ↑(ps.map Prod.snd) := by
        rw [Multiset.coe_eq_coe]
        have h1 : (List.range ps.length).map (fun k => pairVal ps k) =
            ((List.range ps.length).map (fun k => ps.getD k (0, 0))).map Prod.snd := by
          rw [List.map_map]
          rfl
        rw [h1, show ps.length = (ps.length) from rfl, range_map_getD ps (0, 0)]

theorem bkt_le_of_wpos_lt {ps : List (ℕ × ℕ)} {k k' : ℕ} (hk : k < ps.length)
    (hk' : k' < ps.length) (h : wpos ps k < wpos ps k') :
    pairBkt ps k ≤ pairBkt ps k' := by
  by_contra hgt
  exact absurd (wpos_lt_of_bkt_lt hk' hk (by omega)) (by omega)

theorem countingSortOut_length (ps : List (ℕ × ℕ)) :
    (countingSortOut ps).length = ps.length := by
  rw [countingSortOut, List.length_map, List.length_range]

theorem countingSortOut_pairwise (ps : List (ℕ × ℕ)) (f : ℕ → ℕ)
    (hf : ∀ p ∈ ps, p.1 = f p.2) :
    (countingSortOut ps).Pairwise (fun a b => f a ≤ f b) := by
  rw [List.pairwise_iff_getElem]
  intro a b ha hb hab
  have hlen := countingSortOut_length ps
  have ha' : a < ps.length := by omega
  have hb' : b < ps.length := by omega
  simp only [countingSortOut, List.getElem_map, List.getElem_range]
  rcases wpos_surj ps ha' with ⟨k1, hk1, hw1⟩
  rcases wpos_surj ps hb' with ⟨k2, hk2, hw2⟩
  have hlt : wpos ps k1 < wpos ps k2 := by omega
  have hble := bkt_le_of_wpos_lt hk1 hk2 hlt
  have hmem1 : ps.getD k1 (0, 0) ∈ ps := by
    rw [List.getD_eq_getElem ps (0, 0) hk1]
    exact List.getElem_mem hk1
  have hmem2 : ps.getD k2 (0, 0) ∈ ps := by
    rw [List.getD_eq_getElem ps (0, 0) hk2]
    exact List.getElem_mem hk2
  have hf1 : pairBkt ps k1 = f (pairVal ps k1) := hf _ hmem1
  have hf2 : pairBkt ps k2 = f (pairVal ps k2) := hf _ hmem2
  rw [← hw1, ← hw2, out_at_wpos hk1, out_at_wpos hk2, ← hf1, ← hf2]
  exact hble

theorem runSort_fst_perm (scene : List Splat) (vp : Fin 16 → ℚ) (alphaMin : ℕ) :
    List.Perm (runSort scene vp alphaMin).1 (visibleMap scene alphaMin) := by
  rw [runSort]
  by_cases h : (visibleMap scene alphaMin).isEmpty
  · rw [if_pos h]
    rw [List.isEmpty_iff] at h
    rw [h]
  · rw [if_neg h]
    have hperm := countingSortOut_perm
      ((visibleMap scene alphaMin).map (fun i => (sortBucket scene vp alphaMin i, i)))
    rw [List.map_map] at hperm
    have hcomp : (Prod.snd ∘ fun i => (sortBucket scene vp alphaMin i, i)) =
        (id : ℕ → ℕ) := rfl
    rw [hcomp, List.map_id] at hperm
    exact hperm

theorem runSort_snd_eq (scene : List Splat) (vp : Fin 16 → ℚ) (alphaMin : ℕ) :
    (runSort scene vp alphaMin).2 = (visibleMap scene alphaMin).length := by
  rw [runSort]
  by_cases h : (visibleMap scene alphaMin).isEmpty
  · rw [if_pos h]
    rw [List.isEmpty_iff] at h
    rw [h]
    rfl
  · rw [if_neg h]

theorem runSort_fst_pairwise (scene : List Splat) (vp : Fin 16 → ℚ) (alphaMin : ℕ) :
    (runSort scene vp alphaMin).1.Pairwise
      (fun i j => sortBucket scene vp alphaMin i ≤ sortBucket scene vp alphaMin j) := by
  rw [runSort]
  by_cases h : (visibleMap scene alphaMin).isEmpty
  · rw [if_pos h]
    exact List.Pairwise.nil
  · rw [if_neg h]
    apply countingSortOut_pairwise
    intro p hp
    rcases List.mem_map.mp hp with ⟨i, _, rfl⟩
    rfl

theorem processMessage_sort_run (st : WorkerState) (scene : List Splat) (vp : Fin 16 → ℚ)
    (hsc : st.scene = some scene) (hne : scene.length ≠ 0)
    (hth : throttled st.lastProj vp = false) :
    processMessage st ⟨none, none, some vp⟩ =
      ({ st with lastProj := some vp },
       [OutMsg.sorted (runSort scene vp st.alphaMin).1 (runSort scene vp st.alphaMin).2
          scene.length]) := by
  simp [processMessage, hsc, hne, hth]

theorem processMessage_sort_skip (st : WorkerState) (scene : List Splat) (vp : Fin 16 → ℚ)
    (hsc : st.scene = some scene) (hne : scene.length ≠ 0)
    (hth : throttled st.lastProj vp = true) :
    processMessage st ⟨none, none, some vp⟩ = (st, []) := by
  simp [processMessage, hsc, hne, hth]

theorem processMessage_setAlpha (st : WorkerState) (aMin : ℕ) :
    processMessage st ⟨none, some aMin, none⟩ =
      ({ st with alphaMin := aMin, lastProj := none }, []) := by
  simp [processMessage]

theorem ratTrunc_bounds {q : ℚ} (h1 : -(2 ^ 31) ≤ q) (h2 : q < 2 ^ 31) :
    -(2 ^ 31) ≤ ratTrunc q ∧ ratTrunc q < 2 ^ 31 := by
  rw [ratTrunc]
  split_ifs with h
  · refine ⟨le_trans (by norm_num) (Int.floor_nonneg.mpr h), ?_⟩
    have : ⌊q⌋ < (2 ^ 31 : ℤ) := Int.floor_lt.mpr (by exact_mod_cast h2)
    exact this
  · push_neg at h
    constructor
    · have hcl : ((-(2 ^ 31) : ℤ) : ℚ) ≤ (⌈q⌉ : ℚ) := by
        push_cast
        exact le_trans h1 (Int.le_ceil q)
      exact_mod_cast hcl
    · calc ⌈q⌉ ≤ 0 := Int.ceil_le.mpr (by exact_mod_cast le_of_lt h)
        _ < 2 ^ 31 := by norm_num

theorem jsTrunc32_eq_ratTrunc {q : ℚ} (h1 : -(2 ^ 31) ≤ q) (h2 : q < 2 ^ 31) :
    jsTrunc32 q = ratTrunc q := by
  have hb := ratTrunc_bounds h1 h2
  rw [jsTrunc32]
  omega

theorem jsRound_abs_le (q : ℚ) : |(jsRound q : ℚ) - q| ≤ 1/2 := by
  rw [jsRound, abs_le]
  constructor
  · have h := Int.sub_one_lt_floor (q + 1/2)
    have h2 : (q + 1/2) - 1 < (⌊q + 1/2⌋ : ℚ) := h
    linarith
  · have h := Int.floor_le (q + 1/2)
    linarith

theorem sigmaCode_eq_covRtDR (w x y z s0 s1 s2 : ℚ) :
    sigmaCode w x y z s0 s1 s2 0 = covRtDR w x y z s0 s1 s2 0 0 ∧
    sigmaCode w x y z s0 s1 s2 1 = covRtDR w x y z s0 s1 s2 0 1 ∧
    sigmaCode w x y z s0 s1 s2 2 = covRtDR w x y z s0 s1 s2 0 2 ∧
    sigmaCode w x y z s0 s1 s2 3 = covRtDR w x y z s0 s1 s2 1 1 ∧
    sigmaCode w x y z s0 s1 s2 4 = covRtDR w x y z s0 s1 s2 1 2 ∧
    sigmaCode w x y z s0 s1 s2 5 = covRtDR w x y z s0 s1 s2 2 2 := by
  refine ⟨?_, ?_, ?_, ?_, ?_, ?_⟩ <;>
  · simp [sigmaCode, scaledM, rotFlat, covRtDR, Rspec, scaleSel, diagS, Fin.sum_univ_three]
    ring

theorem splatAt_eq_get {scene : List Splat} {i : ℕ} (hi : i < scene.length) :
    splatAt scene i = scene.get ⟨i, hi⟩ := by
  rw [splatAt, List.getD_eq_getElem scene default hi]
  rfl

theorem generateTexture_word (scene : List Splat) (i : ℕ) (hi : i < scene.length) (k : ℕ)
    (hk : k < 8) : generateTexture scene (8 * i + k) = texelWord (splatAt scene i) k := by
  have hdiv : (8 * i + k) / 8 = i := by omega
  have hmod : (8 * i + k) % 8 = k := by omega
  rw [generateTexture]
  simp only [hdiv, hmod]
  rw [dif_pos hi, splatAt_eq_get hi]

/-- Claim C1: for every loaded scene of N splats with alpha cutoff a,
every sort that passes the throttle emits exactly one message whose
index array is a permutation of the visible set
`{i < N : opacity byte of splat i ≥ a}` (= `visibleMap`), carrying
`vertexCount` = M (the size of that set, 0 when it is empty) and
`totalCount` = N. -/
theorem claim1_sort_perm_and_counts (st : WorkerState) (scene : List Splat)
    (vp : Fin 16 → ℚ) (hsc : st.scene = some scene) (hne : scene ≠ [])
    (hth : throttled st.lastProj vp = false) :
    ∃ L, processMessage st ⟨none, none, some vp⟩ =
        ({ st with lastProj := some vp },
         [OutMsg.sorted L (visibleMap scene st.alphaMin).length scene.length]) ∧
      List.Perm L (visibleMap scene st.alphaMin) := by
  refine ⟨(runSort scene vp st.alphaMin).1, ?_, runSort_fst_perm scene vp st.alphaMin⟩
  rw [processMessage_sort_run st scene vp hsc (fun h => hne (List.length_eq_zero.mp h)) hth,
    runSort_snd_eq]

/-- Witness for C1: a two-splat scene (splat 0 visible with opacity
byte 255, splat 1 culled with opacity byte 0), empty `lastProj`,
cutoff 1. -/
theorem claim1_witness :
    ((⟨some [spVis, spInvis], none, 1⟩ : WorkerState).scene = some [spVis, spInvis] ∧
      [spVis, spInvis] ≠ [] ∧
      throttled (⟨some [spVis, spInvis], none, 1⟩ : WorkerState).lastProj vpZ = false) ∧
    (∃ L, processMessage (⟨some [spVis, spInvis], none, 1⟩ : WorkerState)
          ⟨none, none, some vpZ⟩ =
        ({ (⟨some [spVis, spInvis], none, 1⟩ : WorkerState) with lastProj := some vpZ },
         [OutMsg.sorted L
            (visibleMap [spVis, spInvis]
              (⟨some [spVis, spInvis], none, 1⟩ : WorkerState).alphaMin).length
            ([spVis, spInvis] : List Splat).length]) ∧
      List.Perm L (visibleMap [spVis, spInvis]
        (⟨some [spVis, spInvis], none, 1⟩ : WorkerState).alphaMin)) :=
  ⟨⟨rfl, by simp, rfl⟩,
   claim1_sort_perm_and_counts _ [spVis, spInvis] vpZ rfl (by simp) rfl⟩

/-- Claim C2: for every sort with at least one visible splat and
distinct min and max depths, the emitted index array is bucket-ordered
front-first: at any two positions of the output, the earlier index has
quantized depth bucket at most the later index's bucket. -/
theorem claim2_sort_bucket_ordered (scene : List Splat) (vp : Fin 16 → ℚ) (aMin : ℕ)
    (hvis : visibleMap scene aMin ≠ [])
    (hmm : listMin (sortDepths scene vp aMin) ≠ listMax (sortDepths scene vp aMin)) :
    (runSort scene vp aMin).1.Pairwise
      (fun i j => sortBucket scene vp aMin i ≤ sortBucket scene vp aMin j) :=
  runSort_fst_pairwise scene vp aMin

/-- Claim C4 (amended): a second sort with the same matrix is skipped
when the depth row is near-unit (|v·v − 1| < 0.01); with `lastProj`
holding that matrix, the message produces no output and leaves the
state unchanged. -/
theorem claim4_throttle_same_view (st : WorkerState) (vp : Fin 16 → ℚ)
    (hlp : st.lastProj = some vp)
    (hdot : |vp 2 * vp 2 + vp 6 * vp 6 + vp 10 * vp 10 - 1| < 1/100) :
    processMessage st ⟨none, none, some vp⟩ = (st, []) := by
  have hth : throttled st.lastProj vp = true := by
    rw [hlp, throttled]
    simpa using hdot
  cases hsc : st.scene with
  | none => simp [processMessage, hsc]
  | some scene =>
      by_cases hlen : scene.length = 0
      · simp [processMessage, hsc, hlen]
      · simp [processMessage, hsc, hlen, hth]

/-- Claim C5: a set-alpha message updates the cutoff, clears the stored
projection, and the next sort message on a loaded non-empty scene always
runs and emits its output, regardless of view similarity. -/
theorem claim5_setAlpha_invalidates (st : WorkerState) (scene : List Splat) (aMin : ℕ)
    (vp : Fin 16 → ℚ) (hsc : st.scene = some scene) (hne : scene ≠ []) :
    (processMessage st ⟨none, some aMin, none⟩).2 = [] ∧
    (processMessage st ⟨none, some aMin, none⟩).1.alphaMin = aMin ∧
    (processMessage st ⟨none, some aMin, none⟩).1.lastProj = none ∧
    processMessage (processMessage st ⟨none, some aMin, none⟩).1 ⟨none, none, some vp⟩ =
      ({ st with alphaMin := aMin, lastProj := some vp },
       [OutMsg.sorted (runSort scene vp aMin).1 (runSort scene vp aMin).2
          scene.length]) := by
  rw [processMessage_setAlpha]
  refine ⟨rfl, rfl, rfl, ?_⟩
  rw [processMessage_sort_run { st with alphaMin := aMin, lastProj := none } scene vp
    (by simpa using hsc) (fun h => hne (List.length_eq_zero.mp h)) rfl]

/-- Witness for C5: state with a stored projection equal to the incoming
one — the sort still runs because set-alpha cleared the throttle. -/
theorem claim5_witness :
    ((⟨some [spVis], some vpZ, 7⟩ : WorkerState).scene = some [spVis] ∧
      [spVis] ≠ []) ∧
    ((processMessage (⟨some [spVis], some vpZ, 7⟩ : WorkerState) ⟨none, some 1, none⟩).2 = [] ∧
     (processMessage (⟨some [spVis], some vpZ, 7⟩ : WorkerState) ⟨none, some 1, none⟩).1.alphaMin = 1 ∧
     (processMessage (⟨some [spVis], some vpZ, 7⟩ : WorkerState) ⟨none, some 1, none⟩).1.lastProj = none ∧
     processMessage (processMessage (⟨some [spVis], some vpZ, 7⟩ : WorkerState)
          ⟨none, some 1, none⟩).1 ⟨none, none, some vpZ⟩ =
       ({ (⟨some [spVis], some vpZ, 7⟩ : WorkerState) with alphaMin := 1, lastProj := some vpZ },
        [OutMsg.sorted (runSort [spVis] vpZ 1).1 (runSort [spVis] vpZ 1).2
           ([spVis] : List Splat).length])) :=
  ⟨⟨rfl, by simp⟩, claim5_setAlpha_invalidates _ [spVis] 1 vpZ rfl (by simp)⟩

/-- Claim C9 (amended): the core does not reject an empty scene — a load
with N = 0 is accepted silently (the scene is adopted and a zero-height
texture message is emitted), and every subsequent sort on it returns
without emitting anything. -/
theorem claim9_empty_scene_accepted (st : WorkerState) :
    processMessage st ⟨some [], none, none⟩ =
      ({ st with scene := some [] },
       [OutMsg.texture (generateTexture []) 2048 0]) ∧
    ∀ vp : Fin 16 → ℚ,
      processMessage { st with scene := some [] } ⟨none, none, some vp⟩ =
        ({ st with scene := some [] }, []) := by
  constructor
  · simp [processMessage, texHeight]
  · intro vp
    simp [processMessage]

theorem jsTrunc32_coe_int {n : ℤ} (h1 : -(2 ^ 31) ≤ n) (h2 : n < 2 ^ 31) :
    jsTrunc32 (n : ℚ) = n := by
  rw [jsTrunc32_eq_ratTrunc (by exact_mod_cast h1) (by exact_mod_cast h2), ratTrunc]
  split_ifs with h
  · exact Int.floor_intCast n
  · exact Int.ceil_intCast n

theorem claim2_witness_depths : sortDepths [spVis, spZ2] vpZ 1 = [4096, 8192] := by
  have hv : visibleMap [spVis, spZ2] 1 = [0, 1] := by decide
  have h0 : (vpZ 2 * spVis.px + vpZ 6 * spVis.py + vpZ 10 * spVis.pz) * 4096 =
      (((4096 : ℤ) : ℚ)) := by
    rw [show vpZ 2 = 0 from rfl, show vpZ 6 = 0 from rfl, show vpZ 10 = 1 from rfl,
      show spVis.px = 0 from rfl, show spVis.py = 0 from rfl, show spVis.pz = 1 from rfl]
    norm_num
  have h1 : (vpZ 2 * spZ2.px + vpZ 6 * spZ2.py + vpZ 10 * spZ2.pz) * 4096 =
      (((8192 : ℤ) : ℚ)) := by
    rw [show vpZ 2 = 0 from rfl, show vpZ 6 = 0 from rfl, show vpZ 10 = 1 from rfl,
      show spZ2.px = 0 from rfl, show spZ2.py = 0 from rfl, show spZ2.pz = 2 from rfl]
    norm_num
  rw [sortDepths, hv]
  simp only [List.map_cons, List.map_nil, depthOf]
  rw [show splatAt [spVis, spZ2] 0 = spVis from rfl,
    show splatAt [spVis, spZ2] 1 = spZ2 from rfl, h0, h1,
    jsTrunc32_coe_int (by norm_num) (by norm_num),
    jsTrunc32_coe_int (by norm_num) (by norm_num)]

/-- Witness for C2: two visible splats at depths 4096 and 8192 (distinct
min/max), sorted under the unit-z depth row. -/
theorem claim2_witness :
    (visibleMap [spVis, spZ2] 1 ≠ [] ∧
      listMin (sortDepths [spVis, spZ2] vpZ 1) ≠ listMax (sortDepths [spVis, spZ2] vpZ 1)) ∧
    (runSort [spVis, spZ2] vpZ 1).1.Pairwise
      (fun i j => sortBucket [spVis, spZ2] vpZ 1 i ≤ sortBucket [spVis, spZ2] vpZ 1 j) :=
  ⟨⟨by decide, by rw [claim2_witness_depths]; norm_num [listMin, listMax]⟩,
   claim2_sort_bucket_ordered [spVis, spZ2] vpZ 1 (by decide)
     (by rw [claim2_witness_depths]; norm_num [listMin, listMax])⟩

/-- Counterexample to C4 as stated: with depth row (2,0,0) — squared
norm 4 — the dot test value is 4, so `|dot − 1| ≥ 0.01` is far from the
skip window, and a second sort message carrying the same 16 floats runs
again and emits a second output message.  The three conjuncts walk the
scenario: load, first sort (emits and stores the matrix), second
identical sort (emits again, refuting "produces no output"). -/
theorem claim4_counterexample :
    processMessage initialState ⟨some [spInvis], none, none⟩ =
      ((⟨some [spInvis], none, 1⟩ : WorkerState),
       [OutMsg.texture (generateTexture [spInvis]) 2048 1]) ∧
    ((processMessage (⟨some [spInvis], none, 1⟩ : WorkerState) ⟨none, none, some vpBig⟩).1 =
        (⟨some [spInvis], some vpBig, 1⟩ : WorkerState) ∧
      ((processMessage (⟨some [spInvis], none, 1⟩ : WorkerState)
          ⟨none, none, some vpBig⟩).2).length = 1) ∧
    ((processMessage (⟨some [spInvis], some vpBig, 1⟩ : WorkerState)
        ⟨none, none, some vpBig⟩).2).length = 1 := by
  have hth1 : throttled (some vpBig) vpBig = false := by
    simp only [throttled]
    rw [show vpBig 2 = 2 from rfl, show vpBig 6 = 0 from rfl, show vpBig 10 = 0 from rfl]
    norm_num
  have h2 := processMessage_sort_run (⟨some [spInvis], none, 1⟩ : WorkerState)
    [spInvis] vpBig rfl (by simp) rfl
  have h3 := processMessage_sort_run (⟨some [spInvis], some vpBig, 1⟩ : WorkerState)
    [spInvis] vpBig rfl (by simp) hth1
  refine ⟨rfl, ⟨?_, ?_⟩, ?_⟩
  · rw [h2]
  · rw [h2]
    rfl
  · rw [h3]
    rfl

/-- Witness for C4 (amended): unit depth row (1 at entry 10), stored as
`lastProj`; the identical sort message is skipped with no output. -/
theorem claim4_witness :
    ((⟨some [spVis], some vpZ, 1⟩ : WorkerState).lastProj = some vpZ ∧
      |vpZ 2 * vpZ 2 + vpZ 6 * vpZ 6 + vpZ 10 * vpZ 10 - 1| < 1/100) ∧
    processMessage (⟨some [spVis], some vpZ, 1⟩ : WorkerState) ⟨none, none, some vpZ⟩ =
      ((⟨some [spVis], some vpZ, 1⟩ : WorkerState), []) :=
  ⟨⟨rfl, by
      rw [show vpZ 2 = 0 from rfl, show vpZ 6 = 0 from rfl, show vpZ 10 = 1 from rfl]
      norm_num⟩,
   claim4_throttle_same_view _ vpZ rfl (by
      rw [show vpZ 2 = 0 from rfl, show vpZ 6 = 0 from rfl, show vpZ 10 = 1 from rfl]
      norm_num)⟩

/-- Counterexample to C9 as stated: loading an empty scene (N = 0) into
the initial worker state is accepted silently — the state adopts the
empty scene and the only response is an ordinary texture message, and a
following sort produces no message at all; no failure of any kind is
raised. -/
theorem claim9_counterexample :
    processMessage initialState ⟨some [], none, none⟩ =
      ({ scene := some [], lastProj := none, alphaMin := 1 },
       [OutMsg.texture (generateTexture []) 2048 0]) ∧
    processMessage (⟨some [], none, 1⟩ : WorkerState) ⟨none, none, some vpZ⟩ =
      ((⟨some [], none, 1⟩ : WorkerState), []) :=
  ⟨rfl, rfl⟩

/-- Claim C3 (amended): for every splat, the worker packs into words 0-2
of texel 2i+1 the half-float pairs (4σ₀₀,4σ₀₁),(4σ₀₂,4σ₁₁),(4σ₁₂,4σ₂₂)
of `sigma = MᵀM` with `M` = the §4.2.1 matrix `R` with row j scaled by
scale component j; for a unit quaternion that sigma equals the entries
of `Rᵀ·diag(s)²·R` (not `R·diag(s)²·Rᵀ`), exactly, before half-float
rounding. -/
theorem claim3_covariance_packing (scene : List Splat) (i : ℕ) (hi : i < scene.length)
    (hq : decodeRot (splatAt scene i).q0 ^ 2 + decodeRot (splatAt scene i).q1 ^ 2 +
        decodeRot (splatAt scene i).q2 ^ 2 + decodeRot (splatAt scene i).q3 ^ 2 = 1) :
    (generateTexture scene (8 * i + 4) =
        packHalf2x16 (4 * splatSigma (splatAt scene i) 0)
          (4 * splatSigma (splatAt scene i) 1) ∧
      generateTexture scene (8 * i + 5) =
        packHalf2x16 (4 * splatSigma (splatAt scene i) 2)
          (4 * splatSigma (splatAt scene i) 3) ∧
      generateTexture scene (8 * i + 6) =
        packHalf2x16 (4 * splatSigma (splatAt scene i) 4)
          (4 * splatSigma (splatAt scene i) 5)) ∧
    (splatSigma (splatAt scene i) 0 =
        covRtDR (decodeRot (splatAt scene i).q0) (decodeRot (splatAt scene i).q1)
          (decodeRot (splatAt scene i).q2) (decodeRot (splatAt scene i).q3)
          (splatAt scene i).sx (splatAt scene i).sy (splatAt scene i).sz 0 0 ∧
      splatSigma (splatAt scene i) 1 =
        covRtDR (decodeRot (splatAt scene i).q0) (decodeRot (splatAt scene i).q1)
          (decodeRot (splatAt scene i).q2) (decodeRot (splatAt scene i).q3)
          (splatAt scene i).sx (splatAt scene i).sy (splatAt scene i).sz 0 1 ∧
      splatSigma (splatAt scene i) 2 =
        covRtDR (decodeRot (splatAt scene i).q0) (decodeRot (splatAt scene i).q1)
          (decodeRot (splatAt scene i).q2) (decodeRot (splatAt scene i).q3)
          (splatAt scene i).sx (splatAt scene i).sy (splatAt scene i).sz 0 2 ∧
      splatSigma (splatAt scene i) 3 =
        covRtDR (decodeRot (splatAt scene i).q0) (decodeRot (splatAt scene i).q1)
          (decodeRot (splatAt scene i).q2) (decodeRot (splatAt scene i).q3)
          (splatAt scene i).sx (splatAt scene i).sy (splatAt scene i).sz 1 1 ∧
      splatSigma (splatAt scene i) 4 =
        covRtDR (decodeRot (splatAt scene i).q0) (decodeRot (splatAt scene i).q1)
          (decodeRot (splatAt scene i).q2) (decodeRot (splatAt scene i).q3)
          (splatAt scene i).sx (splatAt scene i).sy (splatAt scene i).sz 1 2 ∧
      splatSigma (splatAt scene i) 5 =
        covRtDR (decodeRot (splatAt scene i).q0) (decodeRot (splatAt scene i).q1)
          (decodeRot (splatAt scene i).q2) (decodeRot (splatAt scene i).q3)
          (splatAt scene i).sx (splatAt scene i).sy (splatAt scene i).sz 2 2) := by
  refine ⟨⟨?_, ?_, ?_⟩, ?_⟩
  · rw [generateTexture_word scene i hi 4 (by norm_num)]
    rfl
  · rw [generateTexture_word scene i hi 5 (by norm_num)]
    rfl
  · rw [generateTexture_word scene i hi 6 (by norm_num)]
    rfl
  · exact sigmaCode_eq_covRtDR _ _ _ _ _ _ _

/-- Counterexample to C3 as stated: the quaternion with all components
1/2 (decoded from byte 192) is unit, yet at scales (1,2,3) the code's
σ₁₁ is 1 while `(R·diag(s)²·Rᵀ)₁₁` = 9 — far outside the claimed
half-float tolerance of 2⁻¹⁰ relative error. -/
theorem claim3_counterexample :
    decodeRot 192 = 1/2 ∧
    (1/2 : ℚ) ^ 2 + (1/2 : ℚ) ^ 2 + (1/2 : ℚ) ^ 2 + (1/2 : ℚ) ^ 2 = 1 ∧
    sigmaCode (1/2) (1/2) (1/2) (1/2) 1 2 3 3 = 1 ∧
    covRDRt (1/2) (1/2) (1/2) (1/2) 1 2 3 1 1 = 9 ∧
    ¬(|sigmaCode (1/2) (1/2) (1/2) (1/2) 1 2 3 3 -
        covRDRt (1/2) (1/2) (1/2) (1/2) 1 2 3 1 1| ≤
      1/1024 * |covRDRt (1/2) (1/2) (1/2) (1/2) 1 2 3 1 1|) := by
  norm_num [decodeRot, sigmaCode, scaledM, rotFlat, scaleSel, covRDRt, Rspec, diagS,
    Fin.sum_univ_three]

/-- Witness for C3 at a concrete scene: one splat whose quaternion bytes
all decode to 1/2 (a unit quaternion). -/
theorem claim3_witness :
    (0 < ([spVis] : List Splat).length ∧
      decodeRot (splatAt [spVis] 0).q0 ^ 2 + decodeRot (splatAt [spVis] 0).q1 ^ 2 +
        decodeRot (splatAt [spVis] 0).q2 ^ 2 + decodeRot (splatAt [spVis] 0).q3 ^ 2 = 1) ∧
    generateTexture [spVis] (8 * 0 + 4) =
      packHalf2x16 (4 * splatSigma (splatAt [spVis] 0) 0)
        (4 * splatSigma (splatAt [spVis] 0) 1) ∧
    splatSigma (splatAt [spVis] 0) 3 =
      covRtDR (decodeRot (splatAt [spVis] 0).q0) (decodeRot (splatAt [spVis] 0).q1)
        (decodeRot (splatAt [spVis] 0).q2) (decodeRot (splatAt [spVis] 0).q3)
        (splatAt [spVis] 0).sx (splatAt [spVis] 0).sy (splatAt [spVis] 0).sz 1 1 := by
  have hq : decodeRot (splatAt [spVis] 0).q0 ^ 2 + decodeRot (splatAt [spVis] 0).q1 ^ 2 +
      decodeRot (splatAt [spVis] 0).q2 ^ 2 + decodeRot (splatAt [spVis] 0).q3 ^ 2 = 1 := by
    rw [show splatAt [spVis] 0 = spVis from rfl]
    norm_num [spVis, decodeRot]
  have h := claim3_covariance_packing [spVis] 0 (by norm_num) hq
  exact ⟨⟨by norm_num, hq⟩, h.1.1, h.2.2.2.2.1⟩

/-- Claim C6 (amended): the depth is the truncation *toward zero* of
`4096·(viewProj[2]·x + viewProj[6]·y + viewProj[10]·z)` wrapped to
32-bit two's complement — floor for nonnegative values, ceiling for
negative ones (not floor throughout). -/
theorem claim6_depth_trunc_toward_zero (vp : Fin 16 → ℚ) (sp : Splat)
    (h1 : -(2 ^ 31) ≤ (vp 2 * sp.px + vp 6 * sp.py + vp 10 * sp.pz) * 4096)
    (h2 : (vp 2 * sp.px + vp 6 * sp.py + vp 10 * sp.pz) * 4096 < 2 ^ 31) :
    depthOf vp sp =
      if 0 ≤ (vp 2 * sp.px + vp 6 * sp.py + vp 10 * sp.pz) * 4096 then
        ⌊(vp 2 * sp.px + vp 6 * sp.py + vp 10 * sp.pz) * 4096⌋
      else ⌈(vp 2 * sp.px + vp 6 * sp.py + vp 10 * sp.pz) * 4096⌉ := by
  rw [depthOf, jsTrunc32_eq_ratTrunc h1 h2, ratTrunc]

/-- Counterexample to C6 as stated: a splat whose depth product is −1/2.
The code computes depth 0 (truncation toward zero), while the claimed
floor toward negative infinity is −1. -/
theorem claim6_counterexample :
    depthOf vpX spNegX = 0 ∧
    ⌊(vpX 2 * spNegX.px + vpX 6 * spNegX.py + vpX 10 * spNegX.pz) * 4096⌋ = (-1 : ℤ) := by
  have he : (vpX 2 * spNegX.px + vpX 6 * spNegX.py + vpX 10 * spNegX.pz) * 4096 =
      (-1/2 : ℚ) := by
    rw [show vpX 2 = 1 from rfl, show vpX 6 = 0 from rfl, show vpX 10 = 0 from rfl,
      show spNegX.px = -1/8192 from rfl, show spNegX.py = 0 from rfl,
      show spNegX.pz = 0 from rfl]
    norm_num
  constructor
  · rw [depthOf, he, jsTrunc32, ratTrunc, if_neg (by norm_num)]
    rw [show (-1/2 : ℚ) = -(1/2) from by norm_num, Int.ceil_neg]
    norm_num
  · rw [he]
    norm_num

/-- Witness for C6 (amended) at the concrete −1/2 input: the code's
depth equals the ceiling branch of the truncation. -/
theorem claim6_witness :
    (-(2 ^ 31) ≤ (vpX 2 * spNegX.px + vpX 6 * spNegX.py + vpX 10 * spNegX.pz) * 4096 ∧
      (vpX 2 * spNegX.px + vpX 6 * spNegX.py + vpX 10 * spNegX.pz) * 4096 < 2 ^ 31) ∧
    depthOf vpX spNegX =
      if 0 ≤ (vpX 2 * spNegX.px + vpX 6 * spNegX.py + vpX 10 * spNegX.pz) * 4096 then
        ⌊(vpX 2 * spNegX.px + vpX 6 * spNegX.py + vpX 10 * spNegX.pz) * 4096⌋
      else ⌈(vpX 2 * spNegX.px + vpX 6 * spNegX.py + vpX 10 * spNegX.pz) * 4096⌉ := by
  have he : (vpX 2 * spNegX.px + vpX 6 * spNegX.py + vpX 10 * spNegX.pz) * 4096 =
      (-1/2 : ℚ) := by
    rw [show vpX 2 = 1 from rfl, show vpX 6 = 0 from rfl, show vpX 10 = 0 from rfl,
      show spNegX.px = -1/8192 from rfl, show spNegX.py = 0 from rfl,
      show spNegX.pz = 0 from rfl]
    norm_num
  refine ⟨⟨by rw [he]; norm_num, by rw [he]; norm_num⟩, ?_⟩
  exact claim6_depth_trunc_toward_zero vpX spNegX (by rw [he]; norm_num) (by rw [he]; norm_num)

/-- Claim C7 (amended): the conversion clamps biased exponents ≥ 142 to
a signed infinity and truncates normal-range mantissas toward zero, but
it does not flush everything below exponent 113 to zero: for biased
exponent e in [1,112] the result is the sign bit plus
`(frac + 2²³) >> (((113−e) mod 32) + 13)` — a gradual-underflow
subnormal, nonzero for many inputs (and corrupted by the JavaScript
shift-count wrap when 113−e ≥ 32); for e = 0 the stored mantissa is
truncated, not zeroed. -/
theorem claim7_half_conversion (v : ℕ) (hv : v < 2 ^ 32) :
    (142 ≤ v / 2 ^ 23 % 256 →
      floatToHalf v = v / 2 ^ 31 % 2 * 2 ^ 15 + 31 * 2 ^ 10) ∧
    (113 ≤ v / 2 ^ 23 % 256 → v / 2 ^ 23 % 256 < 142 →
      floatToHalf v = v / 2 ^ 31 % 2 * 2 ^ 15 + (v / 2 ^ 23 % 256 - 112) * 2 ^ 10 +
        v % 2 ^ 23 / 2 ^ 13) ∧
    (1 ≤ v / 2 ^ 23 % 256 → v / 2 ^ 23 % 256 < 113 →
      floatToHalf v = v / 2 ^ 31 % 2 * 2 ^ 15 +
        (v % 2 ^ 23 + 2 ^ 23) / 2 ^ ((113 - v / 2 ^ 23 % 256) % 32 + 13)) ∧
    (v / 2 ^ 23 % 256 = 0 →
      floatToHalf v = v / 2 ^ 31 % 2 * 2 ^ 15 + v % 2 ^ 23 / 2 ^ 13) :=
  ⟨fun h => floatToHalf_exp_big v h,
   fun h1 h2 => floatToHalf_exp_normal v h1 h2,
   fun h1 h2 => floatToHalf_exp_small v (by omega) h2,
   fun h => floatToHalf_exp_zero v h⟩

/-- Counterexample to C7 as stated: the pattern 0x38000000 (the float
2⁻¹⁵, biased exponent 112 < 113) converts to the half subnormal 0x0200,
not to zero. -/
theorem claim7_counterexample :
    (0x38000000 : ℕ) / 2 ^ 23 % 256 = 112 ∧
    floatToHalf 0x38000000 = 512 ∧ floatToHalf 0x38000000 ≠ 0 :=
  ⟨by norm_num, by decide, by decide⟩

/-- Witness for C7 (amended) at the pattern of 1.0f: biased exponent
127 lies in the normal range and the conversion yields 0x3c00. -/
theorem claim7_witness :
    ((0x3f800000 : ℕ) < 2 ^ 32 ∧ 113 ≤ (0x3f800000 : ℕ) / 2 ^ 23 % 256 ∧
      (0x3f800000 : ℕ) / 2 ^ 23 % 256 < 142) ∧
    floatToHalf 0x3f800000 = 15360 := by
  refine ⟨⟨by norm_num, by norm_num, by norm_num⟩, ?_⟩
  have h := (claim7_half_conversion 0x3f800000 (by norm_num)).2.1 (by norm_num) (by norm_num)
  norm_num at h
  exact h

/-- Claim C8 (amended): for every splat i the RGBA bytes are stored
little-endian in word 3 of texel 2i+1 (word index 8i+7), and word 3 of
texel 2i (word index 8i+3) is the one left unused (zero) — the reverse
of the section-3 table's assignment. -/
theorem claim8_rgba_word (scene : List Splat) (i : ℕ) (hi : i < scene.length) :
    generateTexture scene (8 * i + 3) = 0 ∧
    generateTexture scene (8 * i + 7) =
      (splatAt scene i).r + 256 * (splatAt scene i).g + 65536 * (splatAt scene i).b +
        16777216 * (splatAt scene i).a := by
  constructor
  · rw [generateTexture_word scene i hi 3 (by norm_num)]
    rfl
  · rw [generateTexture_word scene i hi 7 (by norm_num)]
    rfl

/-- Counterexample to C8 as stated: a splat with RGBA bytes (1,2,3,4)
has word 3 of texel 0 equal to 0 (so it does not hold the RGBA bytes)
while word 3 of texel 1 holds them (67305985 = 1 + 2·2⁸ + 3·2¹⁶ + 4·2²⁴,
which is nonzero, so that word is not unused). -/
theorem claim8_counterexample :
    generateTexture [spRGBA] 3 = 0 ∧ generateTexture [spRGBA] 7 = 67305985 ∧
    (67305985 : ℕ) ≠ 0 :=
  ⟨rfl, rfl, by norm_num⟩

/-- Witness for C8 (amended) on the one-splat scene with RGBA bytes
(1,2,3,4). -/
theorem claim8_witness :
    (0 < ([spRGBA] : List Splat).length) ∧
    generateTexture [spRGBA] (8 * 0 + 3) = 0 ∧
    generateTexture [spRGBA] (8 * 0 + 7) =
      (splatAt [spRGBA] 0).r + 256 * (splatAt [spRGBA] 0).g +
        65536 * (splatAt [spRGBA] 0).b + 16777216 * (splatAt [spRGBA] 0).a :=
  ⟨by norm_num, claim8_rgba_word [spRGBA] 0 (by norm_num)⟩

/-- Claim C10: packing a rotation component at or above 255/256
(= 0.99609375) rounds to byte 256, which the Uint8Array store wraps to
0, and the worker decodes 0 as −1; every component in [−1, 255/256)
round-trips to within one quantization step (1/128). -/
theorem claim10_quat_pack_wrap (v : ℚ) (hlo : -1 ≤ v) (hhi : v ≤ 1) :
    (255/256 ≤ v → packRotByte v = 0 ∧ decodeRot (packRotByte v) = -1) ∧
    (v < 255/256 → |decodeRot (packRotByte v) - v| ≤ 1/128) := by
  have hclamp : min 1 (max (-1) v) = v := by
    rw [max_eq_right hlo, min_eq_right hhi]
  constructor
  · intro hv
    have hround : jsRound (v * 128 + 128) = 256 := by
      rw [jsRound]
      apply Int.floor_eq_iff.mpr
      constructor
      · push_cast
        linarith
      · push_cast
        linarith
    have hpack : packRotByte v = 0 := by
      rw [packRotByte, hclamp, hround]
      rfl
    refine ⟨hpack, ?_⟩
    rw [hpack, decodeRot]
    norm_num
  · intro hv
    have habs := jsRound_abs_le (v * 128 + 128)
    have hlow : (0 : ℤ) ≤ jsRound (v * 128 + 128) := by
      rw [jsRound]
      apply Int.floor_nonneg.mpr
      linarith
    have hhig : jsRound (v * 128 + 128) < 256 := by
      rw [jsRound]
      apply Int.floor_lt.mpr
      push_cast
      linarith
    have hpack : packRotByte v = (jsRound (v * 128 + 128)).toNat := by
      rw [packRotByte, hclamp]
      exact Nat.mod_eq_of_lt (by omega)
    rw [hpack, decodeRot]
    have hcast : (((jsRound (v * 128 + 128)).toNat : ℕ) : ℚ) =
        ((jsRound (v * 128 + 128) : ℤ) : ℚ) := by
      exact_mod_cast congrArg (fun t : ℤ => (t : ℚ)) (Int.toNat_of_nonneg hlow)
    rw [hcast]
    have heq : (((jsRound (v * 128 + 128) : ℤ) : ℚ) - 128) / 128 - v =
        (((jsRound (v * 128 + 128) : ℤ) : ℚ) - (v * 128 + 128)) / 128 := by ring
    rw [heq, abs_div, abs_of_pos (show (0:ℚ) < 128 by norm_num)]
    rw [div_le_div_iff (show (0:ℚ) < 128 by norm_num) (show (0:ℚ) < 128 by norm_num)]
    linarith [habs]

/-- Witness for C10 at component value 1: the byte wraps to 0 and
decodes to −1. -/
theorem claim10_witness :
    (-1 ≤ (1 : ℚ) ∧ (1 : ℚ) ≤ 1 ∧ 255/256 ≤ (1 : ℚ)) ∧
    packRotByte 1 = 0 ∧ decodeRot (packRotByte 1) = -1 :=
  ⟨⟨by norm_num, le_refl 1, by norm_num⟩,
   (claim10_quat_pack_wrap 1 (by norm_num) (le_refl 1)).1 (by norm_num)⟩
